import Mathlib

/-
Verification of the rscad mesh generator (src/main.rs).

Shallow embedding conventions:
  * The Rust scalar type `Length = f32` is modelled as `ℚ`.  Field
    arithmetic (+, -, *, /) is exact; none of the verified properties
    depends on floating-point rounding (they are face counts, byte
    layouts and structural equalities).
  * The f32 library functions `cos`, `sin`, `sqrt`, `atan` have no
    rational counterpart, so every definition that uses them takes them
    as explicit function parameters (`fcos`, `fsin`, `fsqrt`, `fatan`).
    Theorems are stated for arbitrary such functions, which makes them
    independent of the numeric values those functions return.
  * A Rust `panic!` / failed `assert!` / out-of-bounds `Vec` index is
    modelled by returning `none`; `some` is normal completion.
  * `write_stl`'s byte stream is modelled as a `List ℕ` of byte values;
    the 4-byte little-endian encoding of one f32 is a parameter
    `enc : Length → List ℕ` assumed (in the theorems) to be 4 bytes long.
-/

namespace RsCad

/-- Rust: `type Length = f32;` modelled as the rationals. -/
abbrev Length := ℚ

/-- Rust: `const FRAGMENTS: u32 = 32;` number of fragments for `circle`. -/
def FRAGMENTS : ℕ := 32

/-- Rust: value of `std::f32::consts::PI` (the f32 nearest to pi),
13176795 * 2 ^ (-22). -/
def PI : Length := 13176795 / 4194304

/-- Rust: `struct Point { x, y, z: Length }`.  Also used as `Vector`. -/
structure Point where
  x : Length
  y : Length
  z : Length
deriving DecidableEq, Repr

/-- Rust: `static ORIGIN: Point = Point {x: 0.0, y: 0.0, z: 0.0};` -/
def ORIGIN : Point := ⟨0, 0, 0⟩

/-- Rust: `impl Add for Point`. -/
def Point.add (p q : Point) : Point :=
  ⟨p.x + q.x, p.y + q.y, p.z + q.z⟩

instance : Add Point := ⟨Point.add⟩

/-- Rust: `impl Sub for Point`. -/
def Point.sub (p q : Point) : Point :=
  ⟨p.x - q.x, p.y - q.y, p.z - q.z⟩

instance : Sub Point := ⟨Point.sub⟩

/-- Rust: `impl Neg for Point`. -/
def Point.neg (p : Point) : Point :=
  ⟨-p.x, -p.y, -p.z⟩

instance : Neg Point := ⟨Point.neg⟩

/-- Rust: `Point::dot`. -/
def Point.dot (p q : Point) : Length :=
  p.x * q.x + p.y * q.y + p.z * q.z

/-- Rust: `Point::cross`. -/
def Point.cross (p q : Point) : Point :=
  ⟨p.y * q.z - p.z * q.y, p.z * q.x - p.x * q.z, p.x * q.y - p.y * q.x⟩

/-- Rust: `Point::length`, `(x*x + y*y + z*z).sqrt()`; the f32 square
root is the parameter `fsqrt`. -/
def Point.length (fsqrt : Length → Length) (p : Point) : Length :=
  fsqrt (p.x * p.x + p.y * p.y + p.z * p.z)

/-- Rust: `impl Div Length for Point`.  The body is
`assert!(scale != 0.0)` followed by the coordinate-wise quotient; the
failed assertion (a fatal abort) is modelled by `none`. -/
def Point.div (p : Point) (scale : Length) : Option Point :=
  if scale = 0 then none
  else some ⟨p.x / scale, p.y / scale, p.z / scale⟩

/-- Rust: `Point::unit_vector`, `self / self.length()`. -/
def Point.unit_vector (fsqrt : Length → Length) (p : Point) : Option Point :=
  p.div (p.length fsqrt)

/-- Rust: `impl MulAssign Length for Point` (coordinate-wise scale). -/
def Point.scale (p : Point) (s : Length) : Point :=
  ⟨p.x * s, p.y * s, p.z * s⟩

/-- Rust: `struct Triangle { vertex: [Point; 3] }`; the three array
entries `vertex[0]`, `vertex[1]`, `vertex[2]` are the fields
`p1`, `p2`, `p3` (the arguments of `Triangle::new`). -/
structure Triangle where
  p1 : Point
  p2 : Point
  p3 : Point
deriving DecidableEq, Repr

/-- Rust: `impl AddAssign Vector for Triangle` (translate every vertex). -/
def Triangle.translate (t : Triangle) (v : Point) : Triangle :=
  ⟨t.p1 + v, t.p2 + v, t.p3 + v⟩

/-- Rust: `impl MulAssign Length for Triangle` (scale every vertex). -/
def Triangle.scaleBy (t : Triangle) (s : Length) : Triangle :=
  ⟨t.p1.scale s, t.p2.scale s, t.p3.scale s⟩

/-- Rust: `struct Colour { r, g, b, alpha: u8 }`. -/
structure Colour where
  r : ℕ
  g : ℕ
  b : ℕ
  alpha : ℕ
deriving DecidableEq, Repr

/-- Rust: `struct Face { normal: Vector, triangle: Triangle, colour: Colour }`. -/
structure Face where
  normal : Point
  triangle : Triangle
  colour : Colour
deriving DecidableEq, Repr

/-- Rust: `struct Object { faces: Vec<Face> }`.  `Shape` is the same type. -/
structure Object where
  faces : List Face
deriving DecidableEq, Repr

/-- Rust: `type Shape = Object;` -/
abbrev Shape := Object

/-- Rust: `Shape::new()`, the empty face list. -/
def Object.new : Object := ⟨[]⟩

/-- Rust: the `Face` literal built by `impl AddAssign Triangle for
Object`: placeholder normal `(0,0,1)` and default colour `(0,0,0,0)`. -/
def mkFace (t : Triangle) : Face :=
  { normal := ⟨0, 0, 1⟩, triangle := t, colour := ⟨0, 0, 0, 0⟩ }

/-- Rust: `impl AddAssign Triangle for Object` (`obj += triangle`). -/
def Object.addTriangle (obj : Object) (t : Triangle) : Object :=
  ⟨obj.faces ++ [mkFace t]⟩

/-- Rust: `impl AddAssign Object for Object` (`self.faces.extend(...)`). -/
def Object.merge (a b : Object) : Object :=
  ⟨a.faces ++ b.faces⟩

/-- Rust: `impl Add Vector for Object` (translate every face's
triangle; the normal and colour are left untouched). -/
def Object.translate (o : Object) (v : Point) : Object :=
  ⟨o.faces.map fun f => { f with triangle := f.triangle.translate v }⟩

/-- Rust: `impl MulAssign Length for Object` (scale every face's
triangle; the normal and colour are left untouched). -/
def Object.scaleBy (o : Object) (s : Length) : Object :=
  ⟨o.faces.map fun f => { f with triangle := f.triangle.scaleBy s }⟩

/-- Rust: `Shape::polygon(vertices)`.  `let p1 = vertices[0];` panics on
an empty vector (modelled by `none`); then one triangle
`(p1, vertices[1+i], vertices[2+i])` per pair of
`zip(&vertices[1..], &vertices[2..])`, appended in order. -/
def Object.polygon (vertices : List Point) : Option Shape :=
  match vertices with
  | [] => none
  | p1 :: rest =>
      some ⟨(List.zip rest (rest.drop 1)).map fun pq => mkFace ⟨p1, pq.1, pq.2⟩⟩

/-- Rust: `Object::umbrella(centre, spokes)`.  The body reads the
parameter (written `vertices` in the source, the sole binding in scope
being `spokes`): one triangle `(centre, spokes[i], spokes[i+1])` per
pair of `zip(&spokes, &spokes[1..])`, then the closing triangle
`Triangle::new(centre, spokes[0], spokes[-1])`, reading the index `-1`
as the last element.  Indexing an empty spoke list panics (`none`). -/
def Object.umbrella (centre : Point) (spokes : List Point) : Option Object :=
  match spokes with
  | [] => none
  | s0 :: rest =>
      some ⟨((List.zip (s0 :: rest) rest).map fun pq => mkFace ⟨centre, pq.1, pq.2⟩)
            ++ [mkFace ⟨centre, s0, rest.getLastD s0⟩]⟩

/-- Rust: `Shape::circle(r)`: `FRAGMENTS` points at angles
`index * 2*PI/FRAGMENTS` on the radius-`r` circle in the z = 0 plane,
triangulated by `polygon`.  `fcos`, `fsin` are the f32 cosine and sine. -/
def Object.circle (fcos fsin : Length → Length) (r : Length) : Option Shape :=
  Object.polygon ((List.range FRAGMENTS).map fun index =>
    ⟨r * fcos ((index : Length) * (2 * PI / (FRAGMENTS : Length))),
     r * fsin ((index : Length) * (2 * PI / (FRAGMENTS : Length))), 0⟩)

/-- Rust: `Shape::squarish(v1, v2)`: `polygon(vec![ORIGIN, v1, v1+v2, v2])`. -/
def Object.squarish (v1 v2 : Point) : Option Shape :=
  Object.polygon [ORIGIN, v1, v1 + v2, v2]

/-- Rust: `Object::rectangular_prism(width, depth, height)`: three
axis-aligned `squarish` panels, each appended once in place and once
translated by the remaining edge vector. -/
def Object.rectangular_prism (width depth height : Length) : Option Object := do
  let vx : Point := ⟨width, 0, 0⟩
  let vy : Point := ⟨0, depth, 0⟩
  let vz : Point := ⟨0, 0, height⟩
  let bottom ← Object.squarish vx vy
  let obj := (Object.new.merge bottom).merge (bottom.translate vz)
  let side ← Object.squarish vy vz
  let obj := (obj.merge side).merge (side.translate vx)
  let front ← Object.squarish vx vz
  some ((obj.merge front).merge (front.translate vy))

/-- Rust: `Object::cylinder(height, radius)`: the body is
`let mut obj = Shape::circle(radius);` followed by the commented-out
line `// obj.extrude(height);`, so the result is exactly
`circle(radius)` and `height` is unused. -/
def Object.cylinder (fcos fsin : Length → Length)
    (_height radius : Length) : Option Object :=
  Object.circle fcos fsin radius

/-- Rust: `Object::icosahedron(radius)`: `lat = 0.5f32.atan()`,
`theta = PI/5.0`, then the single statement
`obj += umbrella((0,0,1), ring)` over the 5-point ring
`(cos(theta*i), sin(theta*i), lat)` for `i` in `0..5`; the `radius`
parameter is never used and no further faces are built. -/
def Object.icosahedron (fcos fsin fatan : Length → Length)
    (_radius : Length) : Option Object :=
  (Object.umbrella ⟨0, 0, 1⟩ ((List.range 5).map fun i =>
      ⟨fcos (PI / 5 * (i : Length)), fsin (PI / 5 * (i : Length)),
       fatan (1 / 2)⟩)).map fun u => Object.new.merge u

/-- Rust: `Object::sphere(radius)`: the body is empty and the return
type is the unit type, so no mesh is produced at all. -/
def Object.sphere (_radius : Length) : Unit := ()

/-- Rust: `read_stl(filename)`: the body is `None`. -/
def read_stl (_filename : String) : Option Object := none

/-- Rust: `read_text_stl(filename)`: the body is `None`. -/
def read_text_stl (_filename : String) : Option Object := none

/-- Little-endian byte list written by `write_u16::<LittleEndian>`. -/
def u16le (n : ℕ) : List ℕ := [n % 256, n / 256 % 256]

/-- Little-endian byte list written by `write_u32::<LittleEndian>` for
`n as u32` (only the low 32 bits of `n` contribute). -/
def u32le (n : ℕ) : List ℕ :=
  [n % 256, n / 256 % 256, n / 65536 % 256, n / 16777216 % 256]

/-- Decode 4 bytes as a little-endian u32 (helper for stating the
size/round-trip law). -/
def u32dec (bs : List ℕ) : ℕ :=
  match bs with
  | [b0, b1, b2, b3] => b0 + 256 * b1 + 65536 * b2 + 16777216 * b3
  | _ => 0

/-- Rust: `write_point(file, point)`: the three coordinates as
little-endian f32; `enc` is the 4-byte f32 encoder. -/
def write_point (enc : Length → List ℕ) (p : Point) : List ℕ :=
  enc p.x ++ enc p.y ++ enc p.z

/-- Bytes written for one face inside `write_stl`'s loop: the normal,
the three vertices, then the u16 attribute byte count 0. -/
def face_bytes (enc : Length → List ℕ) (f : Face) : List ℕ :=
  write_point enc f.normal ++ write_point enc f.triangle.p1 ++
  write_point enc f.triangle.p2 ++ write_point enc f.triangle.p3 ++ u16le 0

/-- Rust: `write_stl(filename, obj)`: 80 zero header bytes, the face
count as a little-endian u32, then the per-face records in order. -/
def write_stl (enc : Length → List ℕ) (obj : Object) : List ℕ :=
  List.replicate 80 0 ++ u32le obj.faces.length ++
  (obj.faces.map (face_bytes enc)).flatten

/-- A face carrying the constant placeholder normal `(0,0,1)` and the
default colour `(0,0,0,0)` of `impl AddAssign Triangle for Object`. -/
def constFace (f : Face) : Prop :=
  f.normal = ⟨0, 0, 1⟩ ∧ f.colour = ⟨0, 0, 0, 0⟩

/-- Every face of the object carries the placeholder normal and colour. -/
def constFaces (o : Object) : Prop :=
  ∀ f ∈ o.faces, constFace f

/-- A trivial 4-byte f32 encoder, used to instantiate the `write_stl`
layout theorem on a concrete input. -/
def encZ : Length → List ℕ := fun _ => [0, 0, 0, 0]

/-- A one-face object, used to instantiate the `write_stl` layout
theorem on a concrete input. -/
def obj1 : Object := ⟨[mkFace ⟨ORIGIN, ORIGIN, ORIGIN⟩]⟩

/-
Helper lemmas.
-/

/-- Indexing the zip of a list with its own tail: entry `i` pairs the
elements at positions `i` and `i + 1`. -/
theorem zip_tail_getElem {α : Type} (l : List α) (i : ℕ) :
    (l.zip (l.drop 1))[i]? = l[i]?.bind fun a => l[i + 1]?.map fun b => (a, b) := by
  induction l generalizing i with
  | nil => simp
  | cons a l ih =>
    cases l with
    | nil => cases i with
      | zero => simp
      | succ n => cases n <;> simp
    | cons b l2 =>
      cases i with
      | zero => simp
      | succ n => simpa using ih n

/-- `polygon` on a nonempty vertex list: the explicit fan face list. -/
theorem polygon_cons (p1 : Point) (rest : List Point) :
    Object.polygon (p1 :: rest) =
      some ⟨(List.zip rest (rest.drop 1)).map fun pq => mkFace ⟨p1, pq.1, pq.2⟩⟩ :=
  rfl

/-- `polygon` succeeds on every nonempty vertex list and emits
`length - 2` faces. -/
theorem polygon_length_of_ne_nil (l : List Point) (h : l ≠ []) :
    ∃ s, Object.polygon l = some s ∧ s.faces.length = l.length - 2 := by
  cases l with
  | nil => exact absurd rfl h
  | cons p1 rest =>
    refine ⟨_, polygon_cons p1 rest, ?_⟩
    simp only [List.length_map]
    rw [List.length_zip, List.length_drop, List.length_cons]
    omega

/-- `mkFace` always carries the placeholder normal and colour. -/
theorem constFace_mkFace (t : Triangle) : constFace (mkFace t) :=
  ⟨rfl, rfl⟩

/-- Merging preserves the placeholder normal/colour invariant. -/
theorem constFaces_merge {a b : Object} (ha : constFaces a) (hb : constFaces b) :
    constFaces (a.merge b) := by
  intro f hf
  rcases List.mem_append.1 hf with h | h
  · exact ha f h
  · exact hb f h

/-- Translation preserves the placeholder normal/colour invariant. -/
theorem constFaces_translate {o : Object} (ho : constFaces o) (v : Point) :
    constFaces (o.translate v) := by
  intro f hf
  rcases List.mem_map.1 hf with ⟨g, hg, rfl⟩
  exact (ho g hg).imp (fun h => h) (fun h => h)

/-- The empty object satisfies the invariant. -/
theorem constFaces_new : constFaces Object.new := by
  intro f hf
  simp [Object.new] at hf

/-- Every face a `polygon` call emits carries the placeholder normal
and colour. -/
theorem constFaces_polygon {l : List Point} {s : Shape}
    (h : Object.polygon l = some s) : constFaces s := by
  cases l with
  | nil => simp [Object.polygon] at h
  | cons p1 rest =>
    rw [polygon_cons, Option.some.injEq] at h
    subst h
    intro f hf
    rcases List.mem_map.1 hf with ⟨pq, _, rfl⟩
    exact constFace_mkFace _

/-- Every face an `umbrella` call emits carries the placeholder normal
and colour. -/
theorem constFaces_umbrella {c : Point} {spokes : List Point} {o : Object}
    (h : Object.umbrella c spokes = some o) : constFaces o := by
  cases spokes with
  | nil => simp [Object.umbrella] at h
  | cons s0 rest =>
    rw [Object.umbrella, Option.some.injEq] at h
    subst h
    intro f hf
    rcases List.mem_append.1 hf with hf | hf
    · rcases List.mem_map.1 hf with ⟨pq, _, rfl⟩
      exact constFace_mkFace _
    · rcases List.mem_singleton.1 hf with rfl
      exact constFace_mkFace _

/-- One f32 is written as `4` bytes, so a point is `12` bytes. -/
theorem write_point_length (enc : Length → List ℕ)
    (henc : ∀ x : Length, (enc x).length = 4) (p : Point) :
    (write_point enc p).length = 12 := by
  simp [write_point, henc]

/-- One face record of `write_stl` is `50` bytes. -/
theorem face_bytes_length (enc : Length → List ℕ)
    (henc : ∀ x : Length, (enc x).length = 4) (f : Face) :
    (face_bytes enc f).length = 50 := by
  simp [face_bytes, u16le, write_point_length enc henc]

/-- The per-face section of `write_stl` is `50` bytes per face. -/
theorem flatten_face_bytes_length (enc : Length → List ℕ)
    (henc : ∀ x : Length, (enc x).length = 4) (l : List Face) :
    ((l.map (face_bytes enc)).flatten).length = 50 * l.length := by
  induction l with
  | nil => simp
  | cons f l ih =>
    simp only [List.map_cons, List.flatten_cons, List.length_append, ih,
      face_bytes_length enc henc, List.length_cons]
    ring

/-- Decoding the four bytes of `u32le` recovers the low 32 bits. -/
theorem u32dec_u32le (n : ℕ) : u32dec (u32le n) = n % 4294967296 := by
  simp only [u32le, u32dec]
  omega

/-
Claim theorems.
-/

/-- Claim C9: for every filename, `read_stl` and `read_text_stl` return
the "no mesh available" result `none`; no input ever yields a mesh. -/
theorem read_stl_always_none (filename1 filename2 : String) :
    read_stl filename1 = none ∧ read_text_stl filename2 = none :=
  ⟨rfl, rfl⟩

/-- Claim C4 (evaluation of the code): `Object::sphere` has unit return
type and an empty body, so for every radius it produces no mesh at all;
in particular it does not build `icosahedron(1.0)`, no `spherify`
exists, and no 5120-face object is ever returned. -/
theorem sphere_returns_no_mesh (radius : Length) :
    Object.sphere radius = () :=
  rfl

/-- Claim C2 (evaluation of the code): for every radius and every
choice of the f32 `cos`/`sin`/`atan` functions, `Object::icosahedron`
returns an object with exactly `5` faces (only the top-cap umbrella
over the 5-point ring is built), and the result is entirely independent
of the `radius` argument. -/
theorem icosahedron_five_faces (fcos fsin fatan : Length → Length)
    (radius radius2 : Length) :
    ∃ o, Object.icosahedron fcos fsin fatan radius = some o
      ∧ o.faces.length = 5
      ∧ Object.icosahedron fcos fsin fatan radius
          = Object.icosahedron fcos fsin fatan radius2 :=
  ⟨_, rfl, rfl, rfl⟩

/-- Claim C10: `polygon(vertices)` on a nonempty vertex list emits
exactly `length - 2` faces, the `i`-th being the fan triangle
`(vertices[0], vertices[i+1], vertices[i+2])`; consequently `circle`
(32 sample points) emits exactly 30 faces and `squarish` exactly 2. -/
theorem polygon_fan_spec (v0 : Point) (rest : List Point) :
    (∃ s, Object.polygon (v0 :: rest) = some s
      ∧ s.faces.length = (v0 :: rest).length - 2
      ∧ ∀ i : ℕ, s.faces[i]? =
          (rest[i]?.bind fun a => rest[i + 1]?.map fun b => mkFace ⟨v0, a, b⟩))
    ∧ (∀ (fcos fsin : Length → Length) (r : Length),
        ∃ c, Object.circle fcos fsin r = some c ∧ c.faces.length = 30)
    ∧ (∀ v1 v2 : Point,
        ∃ q, Object.squarish v1 v2 = some q ∧ q.faces.length = 2) := by
  refine ⟨⟨_, polygon_cons v0 rest, ?_, ?_⟩, ?_, ?_⟩
  · simp only [List.length_map]
    rw [List.length_zip, List.length_drop, List.length_cons]
    omega
  · intro i
    simp only [List.getElem?_map, zip_tail_getElem]
    cases rest[i]? <;> cases rest[i + 1]? <;> simp
  · intro fcos fsin r
    obtain ⟨c, hc, hlen⟩ := polygon_length_of_ne_nil
      ((List.range FRAGMENTS).map fun index =>
        ⟨r * fcos ((index : Length) * (2 * PI / (FRAGMENTS : Length))),
         r * fsin ((index : Length) * (2 * PI / (FRAGMENTS : Length))), 0⟩)
      (by simp [FRAGMENTS]; exact ⟨0, by norm_num⟩)
    exact ⟨c, hc, by simpa [FRAGMENTS] using hlen⟩
  · intro v1 v2
    exact ⟨_, rfl, rfl⟩

/-- Claim C6 counterexample: with a concrete cosine/sine (constantly 0)
and `height = radius = 1`, the cylinder has 30 faces, exactly the same
as `circle(1)`, not twice as many; the claim "cylinder has exactly
twice as many faces as circle(radius)" is false on the code. -/
theorem cylinder_claim_counterexample :
    (Object.cylinder (fun _ => 0) (fun _ => 0) 1 1).map (fun o => o.faces.length)
      = some 30
    ∧ (Object.circle (fun _ => 0) (fun _ => 0) 1).map (fun o => o.faces.length)
      = some 30
    ∧ ¬ ((Object.cylinder (fun _ => 0) (fun _ => 0) 1 1).map (fun o => o.faces.length)
        = (Object.circle (fun _ => 0) (fun _ => 0) 1).map (fun o => 2 * o.faces.length)) := by
  refine ⟨?_, ?_, ?_⟩ <;> decide

/-- Claim C6 (amended): `cylinder(height, radius)` equals
`circle(radius)` unchanged — the `extrude(height)` call is commented
out in the source and no `extrude` exists — so it has exactly as many
faces as `circle(radius)`, namely 30. -/
theorem cylinder_eq_circle (fcos fsin : Length → Length)
    (height radius : Length) :
    Object.cylinder fcos fsin height radius = Object.circle fcos fsin radius
    ∧ ∃ c, Object.circle fcos fsin radius = some c
        ∧ Object.cylinder fcos fsin height radius = some c
        ∧ c.faces.length = 30 := by
  obtain ⟨c, hc, hlen⟩ := polygon_length_of_ne_nil
    ((List.range FRAGMENTS).map fun index =>
      ⟨radius * fcos ((index : Length) * (2 * PI / (FRAGMENTS : Length))),
       radius * fsin ((index : Length) * (2 * PI / (FRAGMENTS : Length))), 0⟩)
    (by simp [FRAGMENTS]; exact ⟨0, by norm_num⟩)
  exact ⟨rfl, c, hc, hc, by simpa [FRAGMENTS] using hlen⟩

/-- Claim C3 counterexample: for the centre `(0,0,0)` and the two
spokes `(1,0,0), (0,1,0)`, the first face `umbrella` emits is the
triangle `(centre, spoke[0], spoke[1])`, not the
`(centre, spoke[1], spoke[0])` the claim states (and those two
triangles differ). -/
theorem umbrella_claim_counterexample :
    (Object.umbrella ⟨0, 0, 0⟩ [⟨1, 0, 0⟩, ⟨0, 1, 0⟩]).map (fun o => o.faces[0]?)
      = some (some (mkFace ⟨⟨0, 0, 0⟩, ⟨1, 0, 0⟩, ⟨0, 1, 0⟩⟩))
    ∧ mkFace ⟨⟨0, 0, 0⟩, ⟨1, 0, 0⟩, ⟨0, 1, 0⟩⟩
        ≠ mkFace ⟨⟨0, 0, 0⟩, ⟨0, 1, 0⟩, ⟨1, 0, 0⟩⟩ := by
  exact ⟨rfl, by decide⟩

/-- Claim C3 (amended): for every centre and every nonempty spoke list
of `k` points, `umbrella` emits exactly `k` faces: for `i` from `0` to
`k - 2` the triangle `(centre, spoke[i], spoke[i+1])`, plus the closing
triangle `(centre, spoke[0], spoke[k-1])` connecting the first spoke to
the last. -/
theorem umbrella_fan_spec (centre s0 : Point) (rest : List Point) :
    ∃ o, Object.umbrella centre (s0 :: rest) = some o
      ∧ o.faces.length = (s0 :: rest).length
      ∧ (∀ i : ℕ, i + 1 < (s0 :: rest).length →
          o.faces[i]? = ((s0 :: rest)[i]?.bind fun a =>
            (s0 :: rest)[i + 1]?.map fun b => mkFace ⟨centre, a, b⟩))
      ∧ o.faces[rest.length]? = some (mkFace ⟨centre, s0, rest.getLastD s0⟩) := by
  have hfanlen :
      (((s0 :: rest).zip rest).map fun pq =>
        mkFace ⟨centre, pq.1, pq.2⟩).length = rest.length := by
    simp only [List.length_map]
    rw [List.length_zip, List.length_cons]
    omega
  refine ⟨_, rfl, ?_, ?_, ?_⟩
  · simp [hfanlen]
  · intro i hi
    rw [List.getElem?_append_left (by rw [hfanlen]; simpa using hi)]
    have hzip := zip_tail_getElem (s0 :: rest) i
    simp only [List.drop_one, List.tail_cons] at hzip
    simp only [List.getElem?_map, hzip]
    cases (s0 :: rest)[i]? <;> cases (s0 :: rest)[i + 1]? <;> simp
  · rw [List.getElem?_append_right (by rw [hfanlen])]
    rw [hfanlen]
    simp

/-- Claim C3 witness: the amended umbrella law instantiated at the
centre `(0,0,0)` and the spokes `(1,0,0), (0,1,0)`. -/
theorem umbrella_fan_spec_witness :
    ∃ o, Object.umbrella ⟨0, 0, 0⟩ [⟨1, 0, 0⟩, ⟨0, 1, 0⟩] = some o
      ∧ o.faces.length = 2
      ∧ o.faces[0]? = some (mkFace ⟨⟨0, 0, 0⟩, ⟨1, 0, 0⟩, ⟨0, 1, 0⟩⟩)
      ∧ o.faces[1]? = some (mkFace ⟨⟨0, 0, 0⟩, ⟨1, 0, 0⟩, ⟨0, 1, 0⟩⟩) := by
  obtain ⟨o, h1, h2, h3, h4⟩ :=
    umbrella_fan_spec ⟨0, 0, 0⟩ ⟨1, 0, 0⟩ [⟨0, 1, 0⟩]
  refine ⟨o, h1, h2, ?_, ?_⟩
  · have := h3 0 (by norm_num)
    simpa using this
  · simpa using h4

/-- Claim C5: for all width, depth and height, `rectangular_prism`
returns an object with exactly 12 triangular faces, built from the
three axis-aligned `squarish` quad panels (bottom, side, front), each
of 2 faces, each appended twice: once in place and once translated by
the opposite edge vector. -/
theorem rectangular_prism_twelve_faces (width depth height : Length) :
    ∃ o bottom side front,
      Object.squarish ⟨width, 0, 0⟩ ⟨0, depth, 0⟩ = some bottom
      ∧ Object.squarish ⟨0, depth, 0⟩ ⟨0, 0, height⟩ = some side
      ∧ Object.squarish ⟨width, 0, 0⟩ ⟨0, 0, height⟩ = some front
      ∧ Object.rectangular_prism width depth height = some o
      ∧ o.faces = bottom.faces ++ (bottom.translate ⟨0, 0, height⟩).faces
          ++ side.faces ++ (side.translate ⟨width, 0, 0⟩).faces
          ++ front.faces ++ (front.translate ⟨0, depth, 0⟩).faces
      ∧ o.faces.length = 12
      ∧ bottom.faces.length = 2 ∧ side.faces.length = 2
      ∧ front.faces.length = 2 := by
  refine ⟨_, _, _, _, rfl, rfl, rfl, rfl, ?_, rfl, rfl, rfl, rfl⟩
  simp [Object.rectangular_prism, Object.squarish, polygon_cons,
    Object.merge, Object.new, Object.translate]

/-- Claim C7: every face stored in an object by the
`AddAssign Triangle` operation carries the constant placeholder normal
`(0,0,1)` and the default colour `(0,0,0,0)` regardless of the
triangle; hence every face of every generated mesh (polygon, umbrella,
circle, squarish, rectangular prism, cylinder, icosahedron) has normal
`(0,0,1)` and colour `(0,0,0,0)`. -/
theorem face_normal_colour_constant :
    (∀ (obj : Object) (t : Triangle), ∀ f ∈ (obj.addTriangle t).faces,
        f ∈ obj.faces ∨ constFace f)
    ∧ (∀ (l : List Point) (s : Shape), Object.polygon l = some s → constFaces s)
    ∧ (∀ (c : Point) (spokes : List Point) (o : Object),
        Object.umbrella c spokes = some o → constFaces o)
    ∧ (∀ (fcos fsin : Length → Length) (r : Length) (s : Shape),
        Object.circle fcos fsin r = some s → constFaces s)
    ∧ (∀ (v1 v2 : Point) (s : Shape),
        Object.squarish v1 v2 = some s → constFaces s)
    ∧ (∀ (width depth height : Length) (o : Object),
        Object.rectangular_prism width depth height = some o → constFaces o)
    ∧ (∀ (fcos fsin : Length → Length) (height radius : Length) (o : Object),
        Object.cylinder fcos fsin height radius = some o → constFaces o)
    ∧ (∀ (fcos fsin fatan : Length → Length) (radius : Length) (o : Object),
        Object.icosahedron fcos fsin fatan radius = some o → constFaces o) := by
  refine ⟨?_, ?_, ?_, ?_, ?_, ?_, ?_, ?_⟩
  · intro obj t f hf
    rcases List.mem_append.1 hf with h | h
    · exact Or.inl h
    · rcases List.mem_singleton.1 h with rfl
      exact Or.inr (constFace_mkFace t)
  · intro l s h
    exact constFaces_polygon h
  · intro c spokes o h
    exact constFaces_umbrella h
  · intro fcos fsin r s h
    rw [Object.circle] at h
    exact constFaces_polygon h
  · intro v1 v2 s h
    rw [Object.squarish] at h
    exact constFaces_polygon h
  · intro width depth height o h
    obtain ⟨bottom, hbot⟩ :
        ∃ b, Object.squarish ⟨width, 0, 0⟩ ⟨0, depth, 0⟩ = some b := ⟨_, rfl⟩
    obtain ⟨side, hside⟩ :
        ∃ b, Object.squarish ⟨0, depth, 0⟩ ⟨0, 0, height⟩ = some b := ⟨_, rfl⟩
    obtain ⟨front, hfront⟩ :
        ∃ b, Object.squarish ⟨width, 0, 0⟩ ⟨0, 0, height⟩ = some b := ⟨_, rfl⟩
    have hbc := constFaces_polygon hbot
    have hsc := constFaces_polygon hside
    have hfc := constFaces_polygon hfront
    have hval : Object.rectangular_prism width depth height =
        some ((((((Object.new.merge bottom).merge
          (bottom.translate ⟨0, 0, height⟩)).merge side).merge
          (side.translate ⟨width, 0, 0⟩)).merge front).merge
          (front.translate ⟨0, depth, 0⟩)) := by
      simp only [Object.rectangular_prism, hbot, hside, hfront]
      rfl
    rw [hval, Option.some.injEq] at h
    subst h
    exact constFaces_merge
      (constFaces_merge
        (constFaces_merge
          (constFaces_merge
            (constFaces_merge (constFaces_merge constFaces_new hbc)
              (constFaces_translate hbc _))
            hsc)
          (constFaces_translate hsc _))
        hfc)
      (constFaces_translate hfc _)
  · intro fcos fsin height radius o h
    rw [Object.cylinder, Object.circle] at h
    exact constFaces_polygon h
  · intro fcos fsin fatan radius o h
    rw [Object.icosahedron] at h
    obtain ⟨u, hu⟩ :
        ∃ u, Object.umbrella ⟨0, 0, 1⟩ ((List.range 5).map fun i =>
          (⟨fcos (PI / 5 * (i : Length)), fsin (PI / 5 * (i : Length)),
            fatan (1 / 2)⟩ : Point)) = some u := ⟨_, rfl⟩
    rw [hu] at h
    simp only [Option.map_some', Option.some.injEq] at h
    subst h
    exact constFaces_merge constFaces_new (constFaces_umbrella hu)

/-- Claim C7 witness: the `addTriangle` part of the invariant applied
to the empty object and a concrete degenerate triangle. -/
theorem face_normal_colour_constant_witness :
    mkFace ⟨ORIGIN, ORIGIN, ORIGIN⟩
      ∈ (Object.new.addTriangle ⟨ORIGIN, ORIGIN, ORIGIN⟩).faces
    ∧ (mkFace ⟨ORIGIN, ORIGIN, ORIGIN⟩ ∈ Object.new.faces
        ∨ constFace (mkFace ⟨ORIGIN, ORIGIN, ORIGIN⟩)) := by
  refine ⟨by decide, ?_⟩
  exact face_normal_colour_constant.1 Object.new ⟨ORIGIN, ORIGIN, ORIGIN⟩
    (mkFace ⟨ORIGIN, ORIGIN, ORIGIN⟩) (by decide)

/-- Claim C8: dividing a point by a scalar aborts (failed assertion,
modelled by `none`) exactly when the scalar is `0`, and otherwise
returns the coordinate-wise quotient; `unit_vector`, which divides by
the computed length, aborts exactly when that length is `0`. -/
theorem div_unit_vector_abort_iff (p : Point) (s : Length)
    (fsqrt : Length → Length) :
    (p.div s = none ↔ s = 0)
    ∧ (s ≠ 0 → p.div s = some ⟨p.x / s, p.y / s, p.z / s⟩)
    ∧ (p.unit_vector fsqrt = none ↔ p.length fsqrt = 0) := by
  refine ⟨?_, ?_, ?_⟩
  · by_cases h : s = 0 <;> simp [Point.div, h]
  · intro h
    simp [Point.div, h]
  · by_cases h : p.length fsqrt = 0 <;>
      simp [Point.unit_vector, Point.div, h]

/-- Claim C8 witness: division by the nonzero scalar `2` succeeds with
the coordinate-wise quotient, and division by `0` aborts. -/
theorem div_unit_vector_abort_iff_witness :
    Point.div ⟨1, 2, 3⟩ 2 = some ⟨1 / 2, 2 / 2, 3 / 2⟩
    ∧ Point.div ⟨1, 2, 3⟩ 0 = none := by
  refine ⟨(div_unit_vector_abort_iff ⟨1, 2, 3⟩ 2 id).2.1 (by norm_num), ?_⟩
  exact (div_unit_vector_abort_iff ⟨1, 2, 3⟩ 0 id).1.mpr rfl

/-- Claim C1: for every 4-byte f32 encoder and every object with `N`
faces, `write_stl` produces exactly `84 + 50 * N` bytes: an 80-byte
all-zero header, the face count as a little-endian u32 at bytes 80..84
(decoding back to `N` whenever `N` fits in 32 bits), then for each face
a 50-byte record of the normal, the three vertices (3 little-endian f32
each) and the u16 attribute byte count `0`. -/
theorem write_stl_layout (enc : Length → List ℕ)
    (henc : ∀ x : Length, (enc x).length = 4) (obj : Object) :
    (write_stl enc obj).length = 84 + 50 * obj.faces.length
    ∧ (write_stl enc obj).take 80 = List.replicate 80 0
    ∧ ((write_stl enc obj).drop 80).take 4 = u32le obj.faces.length
    ∧ (obj.faces.length < 4294967296 →
        u32dec (((write_stl enc obj).drop 80).take 4) = obj.faces.length)
    ∧ (write_stl enc obj).drop 84 = (obj.faces.map (face_bytes enc)).flatten
    ∧ u16le 0 = [0, 0]
    ∧ (∀ f ∈ obj.faces,
        face_bytes enc f = write_point enc f.normal
          ++ write_point enc f.triangle.p1 ++ write_point enc f.triangle.p2
          ++ write_point enc f.triangle.p3 ++ u16le 0
        ∧ (face_bytes enc f).length = 50) := by
  have hrep : (List.replicate 80 (0 : ℕ)).length = 80 := by simp
  have hu32 : (u32le obj.faces.length).length = 4 := by simp [u32le]
  have htake80 : (write_stl enc obj).take 80 = List.replicate 80 0 := by
    rw [write_stl]
    exact List.take_left' hrep
  have hdrop80 : (write_stl enc obj).drop 80
      = u32le obj.faces.length ++ (obj.faces.map (face_bytes enc)).flatten := by
    rw [write_stl]
    exact List.drop_left' hrep
  have hcount : ((write_stl enc obj).drop 80).take 4 = u32le obj.faces.length := by
    rw [hdrop80]
    exact List.take_left' hu32
  refine ⟨?_, htake80, hcount, ?_, ?_, rfl, ?_⟩
  · rw [write_stl]
    simp only [List.length_append, hrep, hu32,
      flatten_face_bytes_length enc henc]
  · intro hlt
    rw [hcount, u32dec_u32le, Nat.mod_eq_of_lt hlt]
  · have h84 : List.drop 4 (List.drop 80 (write_stl enc obj))
        = (write_stl enc obj).drop 84 := by
      rw [List.drop_drop]
    rw [← h84, hdrop80]
    exact List.drop_left' hu32
  · intro f _
    exact ⟨rfl, face_bytes_length enc henc f⟩

/-- Claim C1 witness: the layout law instantiated with the trivial
4-byte encoder and a concrete one-face object: 134 bytes total and the
face-count field decodes back to 1. -/
theorem write_stl_layout_witness :
    (write_stl encZ obj1).length = 84 + 50 * obj1.faces.length
    ∧ u32dec (((write_stl encZ obj1).drop 80).take 4) = obj1.faces.length := by
  have h := write_stl_layout encZ (fun x => rfl) obj1
  exact ⟨h.1, h.2.2.2.1 (by norm_num [obj1])⟩

end RsCad
